import Mathlib

/-!
Verification of the resilient browser-session and extraction pipeline of the
perplexity-mcp server (src/index.ts), as a shallow embedding in Lean.

Browser effects (puppeteer calls, DOM queries, timers) are modelled through
explicit environments: each environment field records the outcome the live
page would produce for one kind of probe, and the embedded functions are the
pure control flow of the source acting on those outcomes.
-/

namespace PerplexityMCP

/-! ## Configuration (CONFIG, index.ts lines 88-105) -/

/-- CONFIG.MAX_RETRIES (index.ts line 92). -/
def MAX_RETRIES : Nat := 10

/-! ## Answer normalization (index.ts lines 802-805)

The cleanup chain is
  answerContent.replace(/^\s+|\s+$/g, "").replace(/\n\x7b3,\x7d/g, "\n\n").replace(/\s\x7b2,\x7d/g, " ")
Each replace is a global, greedy regex substitution, so it acts on the
maximal runs of the matched character class. We model strings as lists of
characters and each replace as a single left-to-right pass over runs. -/

/-- Character class matched by the JavaScript regex \s (whitespace). -/
def isJsWs (c : Char) : Bool :=
  c == ' ' || c == '\t' || c == '\n' || c == '\x0b' || c == '\x0c' || c == '\r'
  || c == '\u00A0' || c == '\u1680'
  || (decide ('\u2000' ≤ c) && decide (c ≤ '\u200A'))
  || c == '\u2028' || c == '\u2029' || c == '\u202F' || c == '\u205F'
  || c == '\u3000' || c == '\uFEFF'

/-- The replace of the pattern anchored-leading-or-trailing-whitespace by the
empty string: it deletes the maximal leading and trailing whitespace runs. -/
def trimWs (l : List Char) : List Char :=
  ((l.dropWhile isJsWs).reverse.dropWhile isJsWs).reverse

/-- Replacement emitted for one maximal newline run of length n: a run of
three or more newlines becomes exactly two, shorter runs are unchanged
(the regex needs at least three newlines to match). -/
def emitNlRun (n : Nat) : List Char :=
  if 3 ≤ n then ['\n', '\n'] else List.replicate n '\n'

/-- Left-to-right pass of the three-plus-newlines replace; the first argument
counts the newline run currently being read. -/
def nlGo : Nat → List Char → List Char
  | n, [] => emitNlRun n
  | n, a :: rest =>
    if a == '\n' then nlGo (n + 1) rest
    else emitNlRun n ++ a :: nlGo 0 rest

/-- The replace collapsing three or more consecutive newlines to two. -/
def collapseNewlines (l : List Char) : List Char := nlGo 0 l

/-- Replacement emitted for one maximal whitespace run: a run of two or more
whitespace characters becomes one space, a shorter run is unchanged
(the regex needs at least two whitespace characters to match). -/
def emitWsRun (run : List Char) : List Char :=
  if 2 ≤ run.length then [' '] else run

/-- Left-to-right pass of the two-plus-whitespace replace; the first argument
is the whitespace run currently being read, in order. -/
def wsGo : List Char → List Char → List Char
  | run, [] => emitWsRun run
  | run, a :: rest =>
    if isJsWs a then wsGo (run ++ [a]) rest
    else emitWsRun run ++ a :: wsGo [] rest

/-- The replace collapsing runs of two or more whitespace characters to a
single space. -/
def collapseSpaces (l : List Char) : List Char := wsGo [] l

/-- The full cleanup chain applied to the extracted answer text
(index.ts lines 802-805), producing cleanedAnswer. -/
def cleanAnswer (s : String) : String :=
  ⟨collapseSpaces (collapseNewlines (trimWs s.toList))⟩

example : cleanAnswer "  a  b  " = "a b" := by decide
example : cleanAnswer "a\n\n\nb" = "a b" := by decide
example : cleanAnswer "a\nb" = "a\nb" := by decide

/-! ## Recovery classification (determineRecoveryLevel, index.ts lines 493-504) -/

/-- Whether the second list occurs as a contiguous block at the start of the
first list; used to model the JavaScript String.includes probe. -/
def listStartsWith : List Char → List Char → Bool
  | _, [] => true
  | [], _ :: _ => false
  | a :: as, b :: bs => a == b && listStartsWith as bs

/-- Whether the second list occurs as a contiguous block anywhere in the
first list (JavaScript String.includes). -/
def containsSub : List Char → List Char → Bool
  | [], needle => needle.isEmpty
  | a :: t, needle => listStartsWith (a :: t) needle || containsSub t needle

/-- JavaScript String.toLowerCase, restricted to the ASCII messages the code
classifies. -/
def toLowerStr (s : String) : String := ⟨s.toList.map Char.toLower⟩

/-- Whether the lowercased message includes one of the given marker strings. -/
def includesOneOf (msg : String) (markers : List String) : Bool :=
  markers.any (fun m => containsSub (toLowerStr msg).toList m.toList)

/-- Classification of a failure into a recovery level
(determineRecoveryLevel, index.ts lines 493-504): no error gives 3 (full
restart); a message whose lowercase form includes frame or detached gives 2
(new page); otherwise one including timeout or navigation gives 1 (page
refresh); anything else gives 3. -/
def determineRecoveryLevel : Option String → Nat
  | none => 3
  | some msg =>
    if includesOneOf msg ["frame", "detached"] then 2
    else if includesOneOf msg ["timeout", "navigation"] then 1
    else 3

example : determineRecoveryLevel (some "Frame was detached") = 2 := by decide
example : determineRecoveryLevel (some "Navigation timeout of 45000 ms exceeded") = 1 := by decide
example : determineRecoveryLevel none = 3 := by decide
example : determineRecoveryLevel (some "Fallback recovery") = 3 := by decide

/-! ## Recovery procedure (recoveryProcedure, index.ts lines 506-562)

The remediation switch (lines 513-548) performs browser effects only; we
model its outcome through an environment: remediate level idx is the result
of running the remediation switch at the given level during the idx-th
remediation attempt of the process (ok, or the thrown error message). -/

/-- Environment recording the outcome of each remediation attempt of the
switch at index.ts lines 513-548, by level and attempt index. -/
structure RecEnv where
  remediate : Nat → Nat → Except String Unit

/-- Body of recoveryProcedure: classify, run the remediation switch, and on
failure below level 3 re-enter once with the synthetic fallback error
(index.ts lines 551-561). The fuel argument bounds the re-entry depth; the
fallback error classifies to level 3, which never re-enters, so fuel 1 in
recoveryProcedure reproduces the source exactly and the fuel-0 fallback leg
is unreachable. The returned Nat is the next remediation attempt index. -/
def recoveryGo (env : RecEnv) : Nat → Nat → Option String → Except String Unit × Nat
  | fuel, idx, err =>
    match env.remediate (determineRecoveryLevel err) idx with
    | .ok _ => (.ok (), idx + 1)
    | .error msg =>
      if determineRecoveryLevel err < 3 then
        match fuel with
        | 0 => (.error msg, idx + 1)
        | fuel + 1 => recoveryGo env fuel (idx + 1) (some "Fallback recovery")
      else (.error msg, idx + 1)

/-- recoveryProcedure (index.ts lines 506-562): remediate at the classified
level, escalating once to a full restart when a lower-level remediation
throws, and propagating the error when level 3 remediation throws. -/
def recoveryProcedure (env : RecEnv) (idx : Nat) (err : Option String) :
    Except String Unit × Nat :=
  recoveryGo env 1 idx err

/-! ## Selector discovery (waitForSearchInput, index.ts lines 438-475) -/

/-- The fixed priority-ordered candidate list possibleSelectors
(index.ts lines 442-449). -/
def possibleSelectors : List String :=
  ["textarea[placeholder*=\"Ask\"]",
   "textarea[placeholder*=\"Search\"]",
   "textarea.w-full",
   "textarea[rows=\"1\"]",
   "[role=\"textbox\"]",
   "textarea"]

/-- Environment recording, per candidate selector, whether waitForSelector
resolves with a visible element within its 5000 ms budget (a timeout or any
other rejection is the false case, reaching the catch that logs a warning
and moves on), and whether the interactivity evaluate returns a truthy
value (element present, not disabled, not aria-hidden). -/
structure SelectorProbe where
  waitVisible : String → Bool
  isInteractive : String → Bool

/-- The candidate loop of waitForSearchInput (index.ts lines 450-470): the
first selector that resolves visible and evaluates interactive is returned;
a selector failing either check is skipped and the next one is tried. -/
def findFromCandidates (env : SelectorProbe) : List String → Option String
  | [] => none
  | sel :: rest =>
    if env.waitVisible sel && env.isInteractive sel then some sel
    else findFromCandidates env rest

/-- waitForSearchInput (index.ts lines 438-475): null without a page,
otherwise the candidate loop over possibleSelectors; when no candidate
qualifies the function takes a diagnostic screenshot (a pure side effect,
not modelled) and returns null. -/
def waitForSearchInput (env : SelectorProbe) (hasPage : Bool) : Option String :=
  if hasPage then findFromCandidates env possibleSelectors else none

/-! ## Challenge detection (checkForCaptcha, index.ts lines 477-491) -/

/-- The fixed captchaIndicators list (index.ts lines 479-487). -/
def captchaIndicators : List String :=
  ["[class*=\"captcha\"]",
   "[id*=\"captcha\"]",
   "iframe[src*=\"captcha\"]",
   "iframe[src*=\"recaptcha\"]",
   "iframe[src*=\"turnstile\"]",
   "#challenge-running",
   "#challenge-form"]

/-- Environment for checkForCaptcha: whether a page handle exists, which
selectors currently match an element in the DOM, and whether the
page.evaluate call rejects (page closed or detached mid-call). -/
structure CaptchaEnv where
  hasPage : Bool
  domMatches : String → Bool
  evalError : Option String

/-- checkForCaptcha (index.ts lines 477-491): false when the page handle is
null; otherwise the result of evaluating, in the page, whether some
indicator selector matches. A rejection of the evaluate call is not caught
inside the function and propagates to the caller. -/
def checkForCaptcha (env : CaptchaEnv) : Except String Bool :=
  if !env.hasPage then .ok false
  else
    match env.evalError with
    | some m => .error m
    | none => .ok (captchaIndicators.any env.domMatches)

/-! ## Answer extraction (index.ts lines 743-799) -/

/-- The fixed answerSelectors list (index.ts lines 743-748). -/
def answerSelectors : List String :=
  [".prose",
   "[data-answer-id]",
   ".text-token-text-primary p",
   ".markdown-content"]

/-- Environment for the extraction evaluate: per selector, the textContent
(with null replaced by the empty string) of each matching element in
document order, and the full visible page text document.body.innerText. -/
structure AnswerDom where
  matchTexts : String → List String
  bodyInnerText : String

/-- The selector loop of the extraction evaluate (index.ts lines 788-799):
the first selector with at least one matching element wins and the text of
its matches is joined with a blank-line separator; with no match at all the
full visible page text is the fallback. -/
def extractFrom (env : AnswerDom) : List String → String
  | [] => env.bodyInnerText
  | sel :: rest =>
    if 0 < (env.matchTexts sel).length then
      String.intercalate "\n\n" (env.matchTexts sel)
    else extractFrom env rest

/-- answerContent as computed by the extraction evaluate over the fixed
selector list (index.ts lines 788-799). -/
def extractAnswer (env : AnswerDom) : String := extractFrom env answerSelectors

/-! ## The retry loop of performSearch (index.ts lines 698-826)

One iteration of the while loop runs the captcha check, the input-selector
check, and then the typing, waiting and extraction steps, inside one try.
We record the first event of each iteration in an environment: either the
captcha check reported a challenge, or no input selector qualified, or some
step threw (with its message), or every step succeeded and produced the raw
extracted answer. The in-loop recovery calls and the catch handler are then
pure control flow over recoveryProcedure. -/

/-- The first event of one try-body iteration of the retry loop. -/
inductive StepOutcome where
  | stepError (msg : String)
  | captchaDetected
  | inputNotFound
  | success (raw : String)
deriving DecidableEq

/-- Errors that escape performSearch, by spec taxonomy: searchFailed covers
the two plain errors thrown by the loop itself (index.ts lines 819 and 826),
recoveryError covers an error propagating out of recoveryProcedure from the
catch handler (line 816). -/
inductive SearchError where
  | searchFailed (msg : String)
  | recoveryError (msg : String)
deriving DecidableEq

/-- Environment of one performSearch call: the first event of each loop
iteration (indexed by the retry counter value for that iteration) and the
remediation outcomes used by recoveryProcedure. -/
structure SearchEnv where
  attempt : Nat → StepOutcome
  remediate : Nat → Nat → Except String Unit

/-- The recovery environment view of a search environment. -/
def SearchEnv.recEnv (env : SearchEnv) : RecEnv := ⟨env.remediate⟩

/-- The catch handler of the retry loop (index.ts lines 810-823): below the
retry ceiling it invokes recoveryProcedure on the caught message, and an
error from that invocation propagates out of performSearch; at the ceiling
it throws the max-retries error without invoking recovery. Returns the
escaping error if any, the number of recoveryProcedure invocations made
(zero or one), and the next remediation attempt index. -/
def catchBlock (env : SearchEnv) (rc idx : Nat) (msg : String) :
    Option SearchError × Nat × Nat :=
  if rc < MAX_RETRIES then
    match recoveryProcedure env.recEnv idx (some msg) with
    | (.ok _, idx2) => (none, 1, idx2)
    | (.error m, idx2) => (some (.recoveryError m), 1, idx2)
  else
    (some (.searchFailed "Failed to perform search after multiple attempts"), 0, idx)

/-- The while loop of performSearch (index.ts lines 698-826). The loop test
is retryCount less than or equal to MAX_RETRIES; fuel is the number of
permitted remaining iterations, kept equal to MAX_RETRIES + 1 - rc by every
call, so the fuel-0 leg is exactly the loop exit throw at line 826. The
counters are rc (retryCount), recCount (invocations of recoveryProcedure so
far, returned for analysis) and idx (remediation attempt index). In the
captcha and missing-input branches recoveryProcedure runs inside the try,
so an error it throws is handled by the catch of the same iteration. -/
def searchGo (env : SearchEnv) : Nat → Nat → Nat → Nat → Except SearchError String × Nat
  | 0, _, recCount, _ =>
    (.error (.searchFailed "Failed to complete search after retries"), recCount)
  | fuel + 1, rc, recCount, idx =>
    match env.attempt rc with
    | .success raw => (.ok (cleanAnswer raw), recCount)
    | .stepError msg =>
      match catchBlock env rc idx msg with
      | (some e, k, _) => (.error e, recCount + k)
      | (none, k, idx2) => searchGo env fuel (rc + 1) (recCount + k) idx2
    | .captchaDetected =>
      match recoveryProcedure env.recEnv idx (some "Captcha detected") with
      | (.ok _, idx2) => searchGo env fuel (rc + 1) (recCount + 1) idx2
      | (.error m, idx2) =>
        match catchBlock env rc idx2 m with
        | (some e, k, _) => (.error e, recCount + 1 + k)
        | (none, k, idx3) => searchGo env fuel (rc + 1) (recCount + 1 + k) idx3
    | .inputNotFound =>
      match recoveryProcedure env.recEnv idx (some "Search input not found") with
      | (.ok _, idx2) => searchGo env fuel (rc + 1) (recCount + 1) idx2
      | (.error m, idx2) =>
        match catchBlock env rc idx2 m with
        | (some e, k, _) => (.error e, recCount + 1 + k)
        | (none, k, idx3) => searchGo env fuel (rc + 1) (recCount + 1 + k) idx3

/-- performSearch from the start of the retry loop (retryCount starts at 0,
index.ts line 698), paired with the number of recoveryProcedure
invocations made. -/
def performSearch (env : SearchEnv) : Except SearchError String × Nat :=
  searchGo env (MAX_RETRIES + 1) 0 0 0

/-! ## Session handle states (index.ts lines 161-162, 251-287, 506-562,
564-590)

The Session owns a browser handle and a page handle. The code paths that
assign either field are enumerated as a step relation on the pair of
handles; every await is a suspension point, so each step is one
uninterrupted run of assignments and the states between steps are exactly
the observable states. -/

/-- The browser and page handles of the single Session
(index.ts lines 161-162); handles are abstracted to identifiers. -/
structure Session where
  browser : Option Nat
  page : Option Nat
deriving DecidableEq

/-- One observable state change of the Session handles. noop covers every
path that assigns neither handle: guards, closes (close does not null a
handle), page reloads, failed launches, and early throws. launched is
initializeBrowser when puppeteer.launch succeeds and newPage then throws
(line 261 assigned, line 275 not reached). launchedWithPage is
initializeBrowser reaching line 275. newPageOnBrowser is recovery level 2
(line 527), guarded by the browser handle being present. pageCleared is the
assignment at line 543 (recovery level 3) or line 574 (idle teardown), each
of which nulls the page before the browser. bothCleared is the state after
the browser is also nulled (lines 543-544, 577-578, or the cleanup catch at
lines 585-586). -/
inductive SessionStep : Session → Session → Prop where
  | noop (s : Session) : SessionStep s s
  | launched (s : Session) (b : Nat) : SessionStep s ⟨some b, s.page⟩
  | launchedWithPage (s : Session) (b p : Nat) : SessionStep s ⟨some b, some p⟩
  | newPageOnBrowser (s : Session) (b p : Nat) :
      s.browser = some b → SessionStep s ⟨s.browser, some p⟩
  | pageCleared (s : Session) : SessionStep s ⟨s.browser, none⟩
  | bothCleared (s : Session) : SessionStep s ⟨none, none⟩

/-- The states the Session handles can reach from the initial state (both
handles null, index.ts lines 161-162) through any sequence of operations. -/
def ReachableSession (s : Session) : Prop :=
  Relation.ReflTransGen SessionStep ⟨none, none⟩ s

/-! ## Claim C4: recovery classification -/

/-- C4: recovery classification is a pure function of the optional error: no
error gives FullRestart (3); a message with a frame or detachment marker
gives NewPage (2); otherwise a message with a timeout or navigation marker
gives Reload (1); anything else gives FullRestart (3); with the four
concrete evaluations of the claim. -/
theorem determineRecoveryLevel_cases :
    determineRecoveryLevel none = 3
    ∧ (∀ msg, includesOneOf msg ["frame", "detached"] = true →
        determineRecoveryLevel (some msg) = 2)
    ∧ (∀ msg, includesOneOf msg ["frame", "detached"] = false →
        includesOneOf msg ["timeout", "navigation"] = true →
        determineRecoveryLevel (some msg) = 1)
    ∧ (∀ msg, includesOneOf msg ["frame", "detached"] = false →
        includesOneOf msg ["timeout", "navigation"] = false →
        determineRecoveryLevel (some msg) = 3)
    ∧ determineRecoveryLevel (some "Frame was detached") = 2
    ∧ determineRecoveryLevel (some "Navigation timeout of 45000 ms exceeded") = 1
    ∧ determineRecoveryLevel (some "Unknown failure") = 3 := by
  refine ⟨rfl, ?_, ?_, ?_, by decide, by decide, by decide⟩
  · intro msg h
    simp [determineRecoveryLevel, h]
  · intro msg h1 h2
    simp [determineRecoveryLevel, h1, h2]
  · intro msg h1 h2
    simp [determineRecoveryLevel, h1, h2]

/-- Witness for C4: the frame-marker case applied at a concrete message. -/
theorem determineRecoveryLevel_cases_witness :
    determineRecoveryLevel (some "detached frame") = 2 :=
  determineRecoveryLevel_cases.2.1 "detached frame" (by decide)

/-! ## Claim C5: recovery escalation -/

/-- C5: when the classified level is below FullRestart (3) and remediation at
that level throws, the procedure re-enters with the synthetic fallback error,
which classifies to FullRestart, so the second remediation attempt runs at
level 3 and its outcome is final: success recovers, failure propagates with
no further re-entry. -/
theorem recovery_escalation :
    determineRecoveryLevel (some "Fallback recovery") = 3
    ∧ ∀ (env : RecEnv) (err : Option String) (idx : Nat) (msg : String),
        determineRecoveryLevel err < 3 →
        env.remediate (determineRecoveryLevel err) idx = .error msg →
        recoveryProcedure env idx err =
          (match env.remediate 3 (idx + 1) with
           | .ok _ => (.ok (), idx + 2)
           | .error m2 => (.error m2, idx + 2)) := by
  refine ⟨by decide, ?_⟩
  intro env err idx msg hlt herr
  have hfb : determineRecoveryLevel (some "Fallback recovery") = 3 := by decide
  cases h2 : env.remediate 3 (idx + 1) with
  | ok u =>
    simp [recoveryProcedure, recoveryGo, herr, hlt, hfb, h2]
  | error m2 =>
    simp [recoveryProcedure, recoveryGo, herr, hlt, hfb, h2]

/-- Remediation environment for the C5 witness: level 1 fails on the first
attempt, level 3 fails on the second. -/
def envReloadThenRestartFail : RecEnv :=
  ⟨fun level j => if level == 3 && j == 1 then .error "restart failed" else .error "reload failed"⟩

/-- Witness for C5: for a timeout error (level 1) whose reload remediation
fails, the second remediation attempt is the FullRestart one and its failure
propagates. -/
theorem recovery_escalation_witness :
    recoveryProcedure envReloadThenRestartFail 0 (some "Navigation timeout") =
      (.error "restart failed", 2) :=
  recovery_escalation.2 envReloadThenRestartFail (some "Navigation timeout") 0
    "reload failed" (by decide) rfl

/-! ## Claim C6: selector discovery returns the first qualifying candidate -/

/-- A candidate selector qualifies when waitForSelector resolves visible and
the interactivity evaluate is truthy. -/
def qualifies (env : SelectorProbe) (sel : String) : Bool :=
  env.waitVisible sel && env.isInteractive sel

lemma findFromCandidates_eq_find? (env : SelectorProbe) :
    ∀ l : List String, findFromCandidates env l = l.find? (qualifies env) := by
  intro l
  induction l with
  | nil => rfl
  | cons a t ih =>
    cases hq : env.waitVisible a && env.isInteractive a
    · simp [findFromCandidates, List.find?_cons, qualifies, hq, ih]
    · simp [findFromCandidates, List.find?_cons, qualifies, hq]

/-- Probe for the C6 concrete scenario: only the third candidate selector
matches a visible, enabled element. -/
def envOnlyThird : SelectorProbe :=
  ⟨fun sel => sel == "textarea.w-full", fun sel => sel == "textarea.w-full"⟩

/-- C6: waitForSearchInput returns the first candidate of the fixed priority
list that is visible within its per-candidate wait and interactive, and none
exactly when no candidate qualifies; on a page where only the third
candidate qualifies it returns that selector, which is not either of the
earlier candidates. -/
theorem waitForSearchInput_first :
    (∀ env : SelectorProbe,
      waitForSearchInput env true = possibleSelectors.find? (qualifies env))
    ∧ (∀ env : SelectorProbe,
        (∀ sel ∈ possibleSelectors, qualifies env sel = false) →
        waitForSearchInput env true = none)
    ∧ possibleSelectors.get? 2 = some "textarea.w-full"
    ∧ waitForSearchInput envOnlyThird true = some "textarea.w-full"
    ∧ waitForSearchInput envOnlyThird true ≠ some "textarea[placeholder*=\"Ask\"]"
    ∧ waitForSearchInput envOnlyThird true ≠ some "textarea[placeholder*=\"Search\"]" := by
  refine ⟨?_, ?_, by decide, by decide, by decide, by decide⟩
  · intro env
    simpa [waitForSearchInput] using findFromCandidates_eq_find? env possibleSelectors
  · intro env h
    have h1 : waitForSearchInput env true = possibleSelectors.find? (qualifies env) := by
      simpa [waitForSearchInput] using findFromCandidates_eq_find? env possibleSelectors
    rw [h1, List.find?_eq_none]
    intro x hx
    simp [h x hx]

/-- Probe for the C6 witness: no candidate qualifies. -/
def envNoCandidate : SelectorProbe := ⟨fun _ => false, fun _ => false⟩

/-- Witness for C6: with no qualifying candidate the discovery returns none. -/
theorem waitForSearchInput_first_witness :
    waitForSearchInput envNoCandidate true = none :=
  waitForSearchInput_first.2.1 envNoCandidate (by decide)

/-! ## Claim C7: extraction selector priority -/

/-- C7: extraction walks the fixed answer-selector list in priority order;
the first selector with at least one match wins and only its matches are
joined with a blank-line separator; with no match at all the full visible
page text is returned. -/
theorem extractAnswer_priority :
    (∀ env : AnswerDom, 0 < (env.matchTexts ".prose").length →
      extractAnswer env = String.intercalate "\n\n" (env.matchTexts ".prose"))
    ∧ (∀ env : AnswerDom, env.matchTexts ".prose" = [] →
        0 < (env.matchTexts "[data-answer-id]").length →
        extractAnswer env = String.intercalate "\n\n" (env.matchTexts "[data-answer-id]"))
    ∧ (∀ env : AnswerDom, env.matchTexts ".prose" = [] →
        env.matchTexts "[data-answer-id]" = [] →
        0 < (env.matchTexts ".text-token-text-primary p").length →
        extractAnswer env = String.intercalate "\n\n" (env.matchTexts ".text-token-text-primary p"))
    ∧ (∀ env : AnswerDom, env.matchTexts ".prose" = [] →
        env.matchTexts "[data-answer-id]" = [] →
        env.matchTexts ".text-token-text-primary p" = [] →
        0 < (env.matchTexts ".markdown-content").length →
        extractAnswer env = String.intercalate "\n\n" (env.matchTexts ".markdown-content"))
    ∧ (∀ env : AnswerDom, (∀ sel ∈ answerSelectors, env.matchTexts sel = []) →
        extractAnswer env = env.bodyInnerText) := by
  refine ⟨?_, ?_, ?_, ?_, ?_⟩
  · intro env h
    simp [extractAnswer, answerSelectors, extractFrom, h]
  · intro env h1 h2
    simp [extractAnswer, answerSelectors, extractFrom, h1, h2]
  · intro env h1 h2 h3
    simp [extractAnswer, answerSelectors, extractFrom, h1, h2, h3]
  · intro env h1 h2 h3 h4
    simp [extractAnswer, answerSelectors, extractFrom, h1, h2, h3, h4]
  · intro env h
    have h1 := h ".prose" (by simp [answerSelectors])
    have h2 := h "[data-answer-id]" (by simp [answerSelectors])
    have h3 := h ".text-token-text-primary p" (by simp [answerSelectors])
    have h4 := h ".markdown-content" (by simp [answerSelectors])
    simp [extractAnswer, answerSelectors, extractFrom, h1, h2, h3, h4]

/-- Answer DOM for the C7 witness: the first and second candidate selectors
both match elements, with different texts. -/
def domFirstTwo : AnswerDom :=
  ⟨fun sel => if sel == ".prose" then ["first text"]
    else if sel == "[data-answer-id]" then ["second text"] else [], "body text"⟩

/-- Witness for C7: with both the first and second selector matching,
extraction returns only the text of the first. -/
theorem extractAnswer_priority_witness : extractAnswer domFirstTwo = "first text" :=
  (extractAnswer_priority.1 domFirstTwo (by decide)).trans (by decide)

/-! ## Claim C9: challenge detection error behavior (corrected) -/

/-- Challenge-detection environment in which the page handle exists but the
DOM evaluation rejects. -/
def capEnvCrash : CaptchaEnv :=
  ⟨true, fun _ => false, some "Execution context was destroyed"⟩

/-- Counterexample for C9 as stated: when the page handle exists and the DOM
evaluation rejects, checkForCaptcha propagates the error instead of treating
it as no challenge. -/
theorem checkForCaptcha_counterexample :
    checkForCaptcha capEnvCrash = .error "Execution context was destroyed"
    ∧ checkForCaptcha capEnvCrash ≠ .ok false :=
  ⟨rfl, fun h => Except.noConfusion h⟩

/-- C9 amended: checkForCaptcha is a pure read of the fixed indicator list;
an absent page handle is treated as no challenge, and when the evaluation
succeeds the result is exactly whether some indicator matches; but an error
thrown by the page evaluation propagates to the caller (inside performSearch
it is then handled by the retry-loop catch). -/
theorem checkForCaptcha_page_errors :
    (∀ env : CaptchaEnv, env.hasPage = false → checkForCaptcha env = .ok false)
    ∧ (∀ env : CaptchaEnv, env.hasPage = true → env.evalError = none →
        checkForCaptcha env = .ok (captchaIndicators.any env.domMatches))
    ∧ (∀ (env : CaptchaEnv) (m : String), env.hasPage = true → env.evalError = some m →
        checkForCaptcha env = .error m) := by
  refine ⟨?_, ?_, ?_⟩
  · intro env h
    simp [checkForCaptcha, h]
  · intro env h1 h2
    simp [checkForCaptcha, h1, h2]
  · intro env m h1 h2
    simp [checkForCaptcha, h1, h2]

/-- Witness for C9 amended: the no-page case applied concretely. -/
theorem checkForCaptcha_page_errors_witness :
    checkForCaptcha ⟨false, fun _ => false, none⟩ = .ok false :=
  checkForCaptcha_page_errors.1 ⟨false, fun _ => false, none⟩ rfl

/-! ## Claim C3: the end-to-end normalization example (corrected) -/

/-- Counterexample for C3 as stated: the cleanup chain does not return the
text with a double newline, because the final whitespace-run collapse also
matches the two consecutive newlines and replaces them with one space. -/
theorem cleanAnswer_example_counterexample :
    cleanAnswer "Paris is the capital of France.\n\n\n\nIt is..." ≠
      "Paris is the capital of France.\n\nIt is..." := by
  decide

/-- C3 amended: on the raw answer of the scenario, the cleanup chain first
collapses the four newlines to two and then collapses that two-character
whitespace run to a single space, returning the sentence with a single
space, not a blank line, between the sentences. -/
theorem cleanAnswer_example :
    cleanAnswer "Paris is the capital of France.\n\n\n\nIt is..." =
      "Paris is the capital of France. It is..." := by
  decide

/-! ## Claim C1: retry budget of the search loop (corrected)

When no input selector ever qualifies, recovery runs inside the try of every
iteration, including the final one with retryCount equal to MAX_RETRIES, and
the loop then exits by the throw at line 826: the failing call makes
MAX_RETRIES + 1 = 11 recovery invocations, one per attempt, not 10. -/

lemma searchGo_allNoInput (env : SearchEnv)
    (hA : ∀ n, env.attempt n = .inputNotFound)
    (hR : ∀ l j, env.remediate l j = .ok ()) :
    ∀ fuel rc recCount idx, searchGo env fuel rc recCount idx =
      (.error (.searchFailed "Failed to complete search after retries"), recCount + fuel) := by
  intro fuel
  induction fuel with
  | zero =>
    intro rc recCount idx
    simp [searchGo]
  | succ n ih =>
    intro rc recCount idx
    have h3 : determineRecoveryLevel (some "Search input not found") = 3 := by decide
    have hrem : env.recEnv.remediate 3 idx = .ok () := hR 3 idx
    simp [searchGo, hA rc, recoveryProcedure, recoveryGo, h3, hrem, ih]
    omega

/-- Search environment of the C1 scenario: no attempt ever finds an input
selector and every remediation succeeds. -/
def envAllNoInput : SearchEnv := ⟨fun _ => .inputNotFound, fun _ _ => .ok ()⟩

/-- Counterexample for C1 as stated: in the scenario where no candidate
input selector ever qualifies, the failing search call makes 11 recovery
invocations, not exactly 10. -/
theorem search_recovery_count_counterexample :
    (performSearch envAllNoInput).2 = 11 ∧ (performSearch envAllNoInput).2 ≠ 10
    ∧ (performSearch envAllNoInput).1 =
        .error (.searchFailed "Failed to complete search after retries") := by
  refine ⟨by decide, by decide, rfl⟩

/-- C1 amended: the retry loop admits MAX_RETRIES + 1 = 11 attempts
(retryCount 0 through 10 inclusive); when every attempt fails because no
candidate input selector qualifies and remediation always succeeds, the call
fails with the search-failed error after exactly MAX_RETRIES + 1 = 11
Recovery State Machine invocations, one per attempt. -/
theorem search_allNoInput_retries (env : SearchEnv)
    (hA : ∀ n, env.attempt n = .inputNotFound)
    (hR : ∀ l j, env.remediate l j = .ok ()) :
    performSearch env =
      (.error (.searchFailed "Failed to complete search after retries"), MAX_RETRIES + 1) := by
  have h := searchGo_allNoInput env hA hR (MAX_RETRIES + 1) 0 0 0
  simpa [performSearch] using h

/-- Witness for C1 amended: the scenario environment instantiated. -/
theorem search_allNoInput_retries_witness :
    performSearch envAllNoInput =
      (.error (.searchFailed "Failed to complete search after retries"), MAX_RETRIES + 1) :=
  search_allNoInput_retries envAllNoInput (fun _ => rfl) (fun _ _ => rfl)

/-! ## Claim C10: session handle invariant -/

/-- C10: in every reachable state of the Session handles, the page handle is
never non-null while the browser handle is null. -/
theorem session_invariant :
    ∀ s : Session, ReachableSession s → s.page.isSome = true → s.browser.isSome = true := by
  intro s h
  induction h with
  | refl =>
    intro h2
    simp at h2
  | tail hab hbc ih =>
    cases hbc with
    | noop => exact ih
    | launched b => intro _h; rfl
    | launchedWithPage b p => intro _h; rfl
    | newPageOnBrowser b p hb => intro _h; simp [hb]
    | pageCleared => intro h2; simp at h2
    | bothCleared => intro h2; simp at h2

/-- Witness for C10: a state with both handles set, reached by a completed
browser launch, satisfies the invariant. -/
theorem session_invariant_witness :
    (Session.mk (some 0) (some 0)).browser.isSome = true :=
  session_invariant ⟨some 0, some 0⟩
    (Relation.ReflTransGen.single (SessionStep.launchedWithPage ⟨none, none⟩ 0 0)) rfl

/-! ## Claim C2: error propagation policy of the retry loop -/

lemma determineRecoveryLevel_le_three (e : Option String) :
    determineRecoveryLevel e ≤ 3 := by
  cases e with
  | none => exact Nat.le_refl 3
  | some msg =>
    simp only [determineRecoveryLevel]
    by_cases h1 : includesOneOf msg ["frame", "detached"] = true
    · rw [if_pos h1]; omega
    · rw [if_neg h1]
      by_cases h2 : includesOneOf msg ["timeout", "navigation"] = true
      · rw [if_pos h2]; omega
      · rw [if_neg h2]

/-- Every error escaping recoveryProcedure comes from a failed level-3
(FullRestart) remediation: level 1 and 2 failures are swallowed and
escalated to the fallback pass. -/
lemma recoveryProcedure_error_from_level3 (env : RecEnv) (idx : Nat)
    (err : Option String) (m : String) (idx2 : Nat)
    (h : recoveryProcedure env idx err = (.error m, idx2)) :
    ∃ j, env.remediate 3 j = .error m := by
  have hfb : determineRecoveryLevel (some "Fallback recovery") = 3 := by decide
  cases h1 : env.remediate (determineRecoveryLevel err) idx with
  | ok u =>
    have heq : recoveryProcedure env idx err = (.ok (), idx + 1) := by
      simp [recoveryProcedure, recoveryGo, h1]
    rw [heq] at h
    simp at h
  | error msg =>
    by_cases hlt : determineRecoveryLevel err < 3
    · cases h2 : env.remediate 3 (idx + 1) with
      | ok u =>
        have heq : recoveryProcedure env idx err = (.ok (), idx + 2) := by
          simp [recoveryProcedure, recoveryGo, h1, hlt, hfb, h2]
        rw [heq] at h
        simp at h
      | error m2 =>
        have heq : recoveryProcedure env idx err = (.error m2, idx + 2) := by
          simp [recoveryProcedure, recoveryGo, h1, hlt, hfb, h2]
        rw [heq] at h
        simp at h
        exact ⟨idx + 1, by rw [h2, h.1]⟩
    · have h3 : determineRecoveryLevel err = 3 := by
        have := determineRecoveryLevel_le_three err
        omega
      have heq : recoveryProcedure env idx err = (.error msg, idx + 1) := by
        simp [recoveryProcedure, recoveryGo, h1, hlt]
      rw [heq] at h
      simp at h
      exact ⟨idx, by rw [← h3, h1, h.1]⟩

/-- An error escaping the catch handler is either the max-retries throw or a
recovery error originating in a failed FullRestart remediation. -/
lemma catchBlock_escape (env : SearchEnv) (rc idx : Nat) (msg : String)
    (e : SearchError) (k idx2 : Nat)
    (h : catchBlock env rc idx msg = (some e, k, idx2)) :
    e = .searchFailed "Failed to perform search after multiple attempts"
    ∨ ∃ m j, e = .recoveryError m ∧ env.remediate 3 j = .error m := by
  unfold catchBlock at h
  by_cases hrc : rc < MAX_RETRIES
  · rw [if_pos hrc] at h
    cases h2 : recoveryProcedure env.recEnv idx (some msg) with
    | mk r idx3 =>
      cases r with
      | ok u => rw [h2] at h; simp at h
      | error m =>
        rw [h2] at h
        simp at h
        obtain ⟨j, hj⟩ := recoveryProcedure_error_from_level3 env.recEnv idx (some msg) m idx3 h2
        exact Or.inr ⟨m, j, h.1.symm, hj⟩
  · rw [if_neg hrc] at h
    simp at h
    exact Or.inl h.1.symm

/-- C2: inside the retry loop, a step error below the retry ceiling is
always converted into a Recovery State Machine invocation (first conjunct),
and the only errors that ever escape a search call are the two
retry-exhaustion errors, surfaced as the search-failed kind, or a recovery
error originating in a failed FullRestart (level 3) remediation (second
conjunct). -/
theorem search_error_escape :
    (∀ (env : SearchEnv) (fuel rc recCount idx : Nat) (msg : String),
      rc < MAX_RETRIES → env.attempt rc = .stepError msg →
      searchGo env (fuel + 1) rc recCount idx =
        (match recoveryProcedure env.recEnv idx (some msg) with
         | (.ok _, idx2) => searchGo env fuel (rc + 1) (recCount + 1) idx2
         | (.error m, _) => (.error (.recoveryError m), recCount + 1)))
    ∧ ∀ (env : SearchEnv) (fuel rc recCount idx : Nat) (e : SearchError) (n : Nat),
        searchGo env fuel rc recCount idx = (.error e, n) →
        (∃ m, e = .searchFailed m ∧
          (m = "Failed to complete search after retries" ∨
           m = "Failed to perform search after multiple attempts"))
        ∨ (∃ m j, e = .recoveryError m ∧ env.remediate 3 j = .error m) := by
  constructor
  · intro env fuel rc recCount idx msg hrc hA
    cases h2 : recoveryProcedure env.recEnv idx (some msg) with
    | mk r idx3 =>
      cases r with
      | ok u => simp [searchGo, hA, catchBlock, if_pos hrc, h2]
      | error m => simp [searchGo, hA, catchBlock, if_pos hrc, h2]
  · intro env fuel
    induction fuel with
    | zero =>
      intro rc recCount idx e n h
      simp [searchGo] at h
      exact Or.inl ⟨"Failed to complete search after retries", h.1.symm, Or.inl rfl⟩
    | succ f ih =>
      intro rc recCount idx e n h
      cases hA : env.attempt rc with
      | success raw =>
        simp only [searchGo, hA] at h
        simp at h
      | stepError msg =>
        simp only [searchGo, hA] at h
        rcases hcb : catchBlock env rc idx msg with ⟨oe, k, idx3⟩
        cases oe with
        | some e2 =>
          simp only [hcb] at h
          simp at h
          obtain ⟨he, -⟩ := h
          rw [← he]
          rcases catchBlock_escape env rc idx msg e2 k idx3 hcb with h1 | h2
          · exact Or.inl ⟨_, h1, Or.inr rfl⟩
          · exact Or.inr h2
        | none =>
          simp only [hcb] at h
          exact ih (rc + 1) (recCount + k) idx3 e n h
      | captchaDetected =>
        simp only [searchGo, hA] at h
        rcases hrp : recoveryProcedure env.recEnv idx (some "Captcha detected") with ⟨r, idx2⟩
        cases r with
        | ok u =>
          simp only [hrp] at h
          exact ih (rc + 1) (recCount + 1) idx2 e n h
        | error m =>
          simp only [hrp] at h
          rcases hcb : catchBlock env rc idx2 m with ⟨oe, k, idx3⟩
          cases oe with
          | some e2 =>
            simp only [hcb] at h
            simp at h
            obtain ⟨he, -⟩ := h
            rw [← he]
            rcases catchBlock_escape env rc idx2 m e2 k idx3 hcb with h1 | h2
            · exact Or.inl ⟨_, h1, Or.inr rfl⟩
            · exact Or.inr h2
          | none =>
            simp only [hcb] at h
            exact ih (rc + 1) (recCount + 1 + k) idx3 e n h
      | inputNotFound =>
        simp only [searchGo, hA] at h
        rcases hrp : recoveryProcedure env.recEnv idx (some "Search input not found") with ⟨r, idx2⟩
        cases r with
        | ok u =>
          simp only [hrp] at h
          exact ih (rc + 1) (recCount + 1) idx2 e n h
        | error m =>
          simp only [hrp] at h
          rcases hcb : catchBlock env rc idx2 m with ⟨oe, k, idx3⟩
          cases oe with
          | some e2 =>
            simp only [hcb] at h
            simp at h
            obtain ⟨he, -⟩ := h
            rw [← he]
            rcases catchBlock_escape env rc idx2 m e2 k idx3 hcb with h1 | h2
            · exact Or.inl ⟨_, h1, Or.inr rfl⟩
            · exact Or.inr h2
          | none =>
            simp only [hcb] at h
            exact ih (rc + 1) (recCount + 1 + k) idx3 e n h

/-- Search environment for the C2 witness: the first step throws and every
remediation fails. -/
def envStepCrash : SearchEnv :=
  ⟨fun _ => .stepError "boom", fun _ _ => .error "restart dead"⟩

/-- Witness for C2: a run that escapes with a recovery error is classified
by the propagation policy. -/
theorem search_error_escape_witness :
    (∃ m, SearchError.recoveryError "restart dead" = .searchFailed m ∧
      (m = "Failed to complete search after retries" ∨
       m = "Failed to perform search after multiple attempts"))
    ∨ (∃ m j, SearchError.recoveryError "restart dead" = .recoveryError m ∧
        envStepCrash.remediate 3 j = .error m) :=
  search_error_escape.2 envStepCrash (MAX_RETRIES + 1) 0 0 0
    (.recoveryError "restart dead") 1 rfl

/-! ## Claim C8: idempotence of the normalization chain

The output of the chain never contains two adjacent whitespace characters,
and its first and last characters are not whitespace; on such a string each
of the three replaces is the identity, so a second application of the chain
changes nothing. -/

/-- Adjacent-pair relation of the chain output: a whitespace character is
never immediately followed by another whitespace character. -/
def WsSep (a b : Char) : Prop := isJsWs a = true → isJsWs b = false

lemma not_ws_beq_nl (a : Char) (ha : isJsWs a = false) : (a == '\n') = false := by
  cases hx : a == '\n'
  · rfl
  · have he : a = '\n' := eq_of_beq hx
    rw [he] at ha
    exact absurd ha (by decide)

lemma wsGo_cons_ws {a : Char} (hw : isJsWs a = true) (run rest : List Char) :
    wsGo run (a :: rest) = wsGo (run ++ [a]) rest := by
  simp [wsGo, hw]

lemma wsGo_cons_not_ws {a : Char} (hw : isJsWs a = false) (run rest : List Char) :
    wsGo run (a :: rest) = emitWsRun run ++ a :: wsGo [] rest := by
  simp [wsGo, hw]

lemma nlGo_cons_nl {a : Char} (ha : (a == '\n') = true) (n : Nat) (rest : List Char) :
    nlGo n (a :: rest) = nlGo (n + 1) rest := by
  simp [nlGo, ha]

lemma nlGo_cons_not_nl {a : Char} (ha : (a == '\n') = false) (n : Nat) (rest : List Char) :
    nlGo n (a :: rest) = emitNlRun n ++ a :: nlGo 0 rest := by
  simp [nlGo, ha]

lemma emitWsRun_cases (run : List Char) :
    emitWsRun run = [] ∨ ∃ x, emitWsRun run = [x] := by
  unfold emitWsRun
  split
  · exact Or.inr ⟨' ', rfl⟩
  · rename_i hlen
    rcases run with _ | ⟨a, _ | ⟨b, t⟩⟩
    · exact Or.inl rfl
    · exact Or.inr ⟨a, rfl⟩
    · exfalso
      apply hlen
      simp only [List.length_cons]
      omega

lemma chain'_emitWsRun (run : List Char) : List.Chain' WsSep (emitWsRun run) := by
  rcases emitWsRun_cases run with h | ⟨x, h⟩
  · rw [h]; exact List.chain'_nil
  · rw [h]; exact List.chain'_singleton x

/-- The output of the whitespace-collapsing pass never has two adjacent
whitespace characters. -/
lemma chain'_wsGo : ∀ (m run : List Char), List.Chain' WsSep (wsGo run m) := by
  intro m
  induction m with
  | nil => intro run; exact chain'_emitWsRun run
  | cons a rest ih =>
    intro run
    cases hw : isJsWs a with
    | true =>
      rw [wsGo_cons_ws hw]
      exact ih (run ++ [a])
    | false =>
      rw [wsGo_cons_not_ws hw]
      have hy : ∀ y ∈ (wsGo [] rest).head?, WsSep a y := by
        intro y _hy hcon
        rw [hw] at hcon
        exact Bool.noConfusion hcon
      rcases emitWsRun_cases run with h | ⟨x, h⟩
      · rw [h, List.nil_append]
        exact List.chain'_cons'.mpr ⟨hy, ih []⟩
      · rw [h, List.singleton_append]
        exact List.chain'_cons.mpr ⟨fun _hx => hw, List.chain'_cons'.mpr ⟨hy, ih []⟩⟩

/-- On a string with no two adjacent whitespace characters the
whitespace-collapsing pass is the identity. -/
lemma wsGo_id : ∀ (n : Nat) (l : List Char), l.length ≤ n →
    List.Chain' WsSep l → wsGo [] l = l := by
  intro n
  induction n with
  | zero =>
    intro l hl _
    rcases l with _ | ⟨a, t⟩
    · rfl
    · simp at hl
  | succ n ih =>
    intro l hl hc
    rcases l with _ | ⟨a, rest⟩
    · rfl
    · cases hw : isJsWs a with
      | false =>
        rw [wsGo_cons_not_ws hw]
        rw [ih rest (by simp only [List.length_cons] at hl; omega) hc.tail]
        rfl
      | true =>
        rcases rest with _ | ⟨b, t⟩
        · rw [wsGo_cons_ws hw]
          rfl
        · have hb : isJsWs b = false := (List.chain'_cons.mp hc).1 hw
          rw [wsGo_cons_ws hw, wsGo_cons_not_ws hb]
          rw [ih t (by simp only [List.length_cons] at hl; omega)
            (List.chain'_cons.mp hc).2.tail]
          rfl

/-- On a string with no two adjacent whitespace characters the
newline-collapsing pass is the identity. -/
lemma nlGo_id : ∀ (n : Nat) (l : List Char), l.length ≤ n →
    List.Chain' WsSep l → nlGo 0 l = l := by
  intro n
  induction n with
  | zero =>
    intro l hl _
    rcases l with _ | ⟨a, t⟩
    · rfl
    · simp at hl
  | succ n ih =>
    intro l hl hc
    rcases l with _ | ⟨a, rest⟩
    · rfl
    · cases ha : a == '\n' with
      | false =>
        rw [nlGo_cons_not_nl ha]
        rw [ih rest (by simp only [List.length_cons] at hl; omega) hc.tail]
        rfl
      | true =>
        have haeq : a = '\n' := eq_of_beq ha
        subst haeq
        rcases rest with _ | ⟨b, t⟩
        · rfl
        · have hb : isJsWs b = false := (List.chain'_cons.mp hc).1 (by decide)
          rw [nlGo_cons_nl (by decide), nlGo_cons_not_nl (not_ws_beq_nl b hb)]
          rw [ih t (by simp only [List.length_cons] at hl; omega)
            (List.chain'_cons.mp hc).2.tail]
          rfl

lemma dropWhile_head_false (p : Char → Bool) :
    ∀ (l : List Char) (a : Char) (t : List Char), l.dropWhile p = a :: t → p a = false := by
  intro l
  induction l with
  | nil => intro a t h; exact List.noConfusion h
  | cons x xs ih =>
    intro a t h
    rw [List.dropWhile_cons] at h
    by_cases hx : p x = true
    · rw [if_pos hx] at h
      exact ih a t h
    · rw [if_neg hx] at h
      injection h with h1 _h2
      rw [← h1]
      simpa using hx

lemma dropWhile_getLast?_eq (p : Char → Bool) :
    ∀ l : List Char, l.dropWhile p ≠ [] → (l.dropWhile p).getLast? = l.getLast? := by
  intro l
  induction l with
  | nil => intro h; exact absurd rfl h
  | cons x xs ih =>
    intro h
    rw [List.dropWhile_cons] at h ⊢
    by_cases hx : p x = true
    · rw [if_pos hx] at h ⊢
      rw [ih h]
      have hxs : xs ≠ [] := by
        intro he
        rw [he] at h
        exact h rfl
      rcases xs with _ | ⟨y, ys⟩
      · exact absurd rfl hxs
      · exact (List.getLast?_cons_cons).symm
    · rw [if_neg hx]

/-- The first character of the trimmed string is not whitespace. -/
lemma trimWs_head_not_ws (l : List Char) (a : Char) (t : List Char)
    (h : trimWs l = a :: t) : isJsWs a = false := by
  unfold trimWs at h
  have hne : (((l.dropWhile isJsWs).reverse).dropWhile isJsWs) ≠ [] := by
    intro he
    rw [he] at h
    exact List.noConfusion h
  have h1 : (((l.dropWhile isJsWs).reverse).dropWhile isJsWs).getLast? =
      ((l.dropWhile isJsWs).reverse).getLast? := dropWhile_getLast?_eq _ _ hne
  rw [List.getLast?_reverse] at h1
  have h2 : (((l.dropWhile isJsWs).reverse).dropWhile isJsWs).reverse.head? = some a := by
    rw [h]; rfl
  rw [List.head?_reverse] at h2
  rw [h1] at h2
  rcases hd : l.dropWhile isJsWs with _ | ⟨b, u⟩
  · rw [hd] at h2
    exact Option.noConfusion h2
  · rw [hd] at h2
    simp only [List.head?_cons, Option.some.injEq] at h2
    rw [← h2]
    exact dropWhile_head_false isJsWs l b u hd

/-- The last character of the trimmed string is not whitespace. -/
lemma trimWs_getLast_not_ws (l : List Char) (z : Char)
    (h : (trimWs l).getLast? = some z) : isJsWs z = false := by
  unfold trimWs at h
  rw [List.getLast?_reverse] at h
  rcases hd : ((l.dropWhile isJsWs).reverse).dropWhile isJsWs with _ | ⟨b, u⟩
  · rw [hd] at h
    exact Option.noConfusion h
  · rw [hd] at h
    simp only [List.head?_cons, Option.some.injEq] at h
    rw [← h]
    exact dropWhile_head_false isJsWs _ b u hd

/-- Trimming is the identity on a string whose first and last characters are
not whitespace. -/
lemma trimWs_eq_self (r : List Char)
    (hhead : ∀ a t, r = a :: t → isJsWs a = false)
    (hlast : ∀ z, r.getLast? = some z → isJsWs z = false) :
    trimWs r = r := by
  have h1 : r.dropWhile isJsWs = r := by
    rcases r with _ | ⟨a, t⟩
    · rfl
    · rw [List.dropWhile_cons, if_neg (by simp [hhead a t rfl])]
  unfold trimWs
  rw [h1]
  have h2 : r.reverse.dropWhile isJsWs = r.reverse := by
    rcases hr : r.reverse with _ | ⟨b, u⟩
    · rfl
    · have hb : r.getLast? = some b := by
        rw [← List.head?_reverse, hr]
        rfl
      rw [List.dropWhile_cons, if_neg (by simp [hlast b hb])]
  rw [h2, List.reverse_reverse]

lemma collapseNewlines_head (a : Char) (rest : List Char) (ha : isJsWs a = false) :
    collapseNewlines (a :: rest) = a :: nlGo 0 rest := by
  unfold collapseNewlines
  rw [nlGo_cons_not_nl (not_ws_beq_nl a ha)]
  rfl

lemma collapseSpaces_head (a : Char) (rest : List Char) (ha : isJsWs a = false) :
    collapseSpaces (a :: rest) = a :: wsGo [] rest := by
  unfold collapseSpaces
  rw [wsGo_cons_not_ws ha]
  rfl

lemma cons_getLast?_some : ∀ (x : Char) (xs : List Char), ∃ w, (x :: xs).getLast? = some w := by
  intro x xs
  induction xs generalizing x with
  | nil => exact ⟨x, rfl⟩
  | cons y ys ih =>
    obtain ⟨w, hw⟩ := ih y
    exact ⟨w, by rw [List.getLast?_cons_cons]; exact hw⟩

/-- The newline-collapsing pass keeps a non-whitespace final character. -/
lemma nlGo_getLast (z : Char) (hz : isJsWs z = false) :
    ∀ (m : List Char) (n : Nat), m.getLast? = some z → (nlGo n m).getLast? = some z := by
  intro m
  induction m with
  | nil => intro n h; exact Option.noConfusion h
  | cons a rest ih =>
    intro n h
    rcases rest with _ | ⟨b, t⟩
    · have haz : a = z := by simpa using h
      subst haz
      rw [nlGo_cons_not_nl (not_ws_beq_nl a hz)]
      rw [List.getLast?_append_cons]
      rfl
    · rw [List.getLast?_cons_cons] at h
      cases ha : a == '\n' with
      | true =>
        rw [nlGo_cons_nl ha]
        exact ih (n + 1) h
      | false =>
        rw [nlGo_cons_not_nl ha]
        rw [List.getLast?_append_cons]
        have h3 : (nlGo 0 (b :: t)).getLast? = some z := ih 0 h
        rcases hng : nlGo 0 (b :: t) with _ | ⟨c, u⟩
        · rw [hng] at h3
          exact Option.noConfusion h3
        · rw [hng] at h3
          rw [List.getLast?_cons_cons]
          exact h3

/-- The whitespace-collapsing pass keeps a non-whitespace final character. -/
lemma wsGo_getLast (z : Char) (hz : isJsWs z = false) :
    ∀ (m run : List Char), m.getLast? = some z → (wsGo run m).getLast? = some z := by
  intro m
  induction m with
  | nil => intro run h; exact Option.noConfusion h
  | cons a rest ih =>
    intro run h
    rcases rest with _ | ⟨b, t⟩
    · have haz : a = z := by simpa using h
      subst haz
      rw [wsGo_cons_not_ws hz]
      rw [List.getLast?_append_cons]
      rfl
    · rw [List.getLast?_cons_cons] at h
      cases hw : isJsWs a with
      | true =>
        rw [wsGo_cons_ws hw]
        exact ih (run ++ [a]) h
      | false =>
        rw [wsGo_cons_not_ws hw]
        rw [List.getLast?_append_cons]
        have h3 : (wsGo [] (b :: t)).getLast? = some z := ih [] h
        rcases hng : wsGo [] (b :: t) with _ | ⟨c, u⟩
        · rw [hng] at h3
          exact Option.noConfusion h3
        · rw [hng] at h3
          rw [List.getLast?_cons_cons]
          exact h3

/-- The chain output starts with a non-whitespace character. -/
lemma normalized_head (l : List Char) :
    ∀ a t, collapseSpaces (collapseNewlines (trimWs l)) = a :: t → isJsWs a = false := by
  intro a t h
  rcases hm : trimWs l with _ | ⟨x, xs⟩
  · rw [hm] at h
    exact List.noConfusion h
  · have hx : isJsWs x = false := trimWs_head_not_ws l x xs hm
    rw [hm, collapseNewlines_head x xs hx, collapseSpaces_head x (nlGo 0 xs) hx] at h
    injection h with h1 _h2
    rw [← h1]
    exact hx

/-- The chain output ends with a non-whitespace character. -/
lemma normalized_getLast (l : List Char) :
    ∀ z, (collapseSpaces (collapseNewlines (trimWs l))).getLast? = some z →
      isJsWs z = false := by
  intro z h
  rcases hm : trimWs l with _ | ⟨x, xs⟩
  · rw [hm] at h
    exact Option.noConfusion h
  · obtain ⟨w, hw⟩ := cons_getLast?_some x xs
    have hwl : (trimWs l).getLast? = some w := by rw [hm]; exact hw
    have hwn : isJsWs w = false := trimWs_getLast_not_ws l w hwl
    have hr : (collapseSpaces (collapseNewlines (trimWs l))).getLast? = some w := by
      have h1 : (collapseNewlines (trimWs l)).getLast? = some w :=
        nlGo_getLast w hwn (trimWs l) 0 hwl
      exact wsGo_getLast w hwn (collapseNewlines (trimWs l)) [] h1
    rw [hr] at h
    injection h with h1
    rw [← h1]
    exact hwn

/-- C8: the answer-normalization chain (trim, collapse three or more
newlines to two, collapse runs of two or more whitespace characters to a
single space, in that order) is idempotent. -/
theorem cleanAnswer_idempotent (s : String) :
    cleanAnswer (cleanAnswer s) = cleanAnswer s := by
  have hlist : ∀ l : List Char,
      collapseSpaces (collapseNewlines (trimWs (collapseSpaces (collapseNewlines (trimWs l))))) =
      collapseSpaces (collapseNewlines (trimWs l)) := by
    intro l
    have hchain : List.Chain' WsSep (collapseSpaces (collapseNewlines (trimWs l))) :=
      chain'_wsGo (collapseNewlines (trimWs l)) []
    have htrim : trimWs (collapseSpaces (collapseNewlines (trimWs l))) =
        collapseSpaces (collapseNewlines (trimWs l)) :=
      trimWs_eq_self _ (normalized_head l) (normalized_getLast l)
    rw [htrim]
    have hnl : collapseNewlines (collapseSpaces (collapseNewlines (trimWs l))) =
        collapseSpaces (collapseNewlines (trimWs l)) :=
      nlGo_id _ _ (Nat.le_refl _) hchain
    rw [hnl]
    exact wsGo_id _ _ (Nat.le_refl _) hchain
  show (⟨collapseSpaces (collapseNewlines (trimWs (cleanAnswer s).toList))⟩ : String) =
    cleanAnswer s
  have ht : (cleanAnswer s).toList = collapseSpaces (collapseNewlines (trimWs s.toList)) := rfl
  rw [ht, hlist]
  rfl

end PerplexityMCP
